import Mathlib

/-!
Verification of the spot path-parameter parser
(`src/lib/src/parsers/path-params-parser.ts`) and the express-server code
generator (`src/lib/src/generators/typescript/express-server.ts`) against
their natural-language specification.

The TypeScript source is shallowly embedded: `Result` becomes `Except`,
ts-morph declaration objects become records carrying exactly the data the
parser reads from them, and the TypeScript AST nodes produced by the
generator become an inductive syntax tree.  External collaborators that are
not part of the shown source (the generic type parser, `isPathParamTypeSafe`,
`isVoid`, the validator naming scheme, `gatherTypes`) are modelled from the
spec and marked as such in their doc comments.
-/

/-! ## JavaScript string helpers

The parser uses `String.prototype.trim`, `split("\n")`, `startsWith('"')`
and `endsWith('"')`.  They are modelled here as structural functions over
`List Char` so that every definition reduces inside the kernel.  JS `trim`
removes all Unicode whitespace; the model covers the ASCII whitespace
characters, which is exact on the inputs the claims quantify over. -/

def isJsWsChar (c : Char) : Bool :=
  c = ' ' || c = '\t' || c = '\n' || c = '\r' || c = '\x0b' || c = '\x0c'

/-- Model of `String.prototype.trim`. -/
def jsTrim (s : String) : String :=
  String.mk (((s.toList.dropWhile isJsWsChar).reverse.dropWhile isJsWsChar).reverse)

def splitNlAux : List Char → List Char → List String
  | [], acc => [String.mk acc.reverse]
  | '\n' :: rest, acc => String.mk acc.reverse :: splitNlAux rest []
  | c :: rest, acc => splitNlAux rest (c :: acc)

/-- Model of `String.prototype.split("\n")`: always returns at least one
chunk; the separator characters are dropped. -/
def jsSplitNewline (s : String) : List String :=
  splitNlAux s.toList []

/-- Model of `exampleValue.startsWith('"')`. -/
def startsWithQuote (s : String) : Bool :=
  match s.toList with
  | [] => false
  | c :: _ => c = '"'

/-- Model of `exampleValue.endsWith('"')`. -/
def endsWithQuote (s : String) : Bool :=
  match s.toList.getLast? with
  | some c => c = '"'
  | none => false

/-- Model of `String.prototype.toLowerCase` (locale-independent; exact on
the ASCII HTTP method names the IR carries). -/
def toLowerCase (s : String) : String :=
  String.mk (s.toList.map Char.toLower)

/-! ## JSON values

`JSON.parse` is applied by the parser to the second line of an `@example`
tag.  A parsed JSON number is a JS double; the model represents it exactly
as `mant * 10 ^ exp10` (mantissa and decimal exponent straight from the
literal, not normalised), which avoids floating point while keeping every
question the parser asks about the value answerable. -/

inductive Json where
  | null
  | bool (b : Bool)
  | num (mant : Int) (exp10 : Int)
  | str (s : String)
deriving DecidableEq, Repr

def digitsToNat (ds : List Char) : Nat :=
  ds.foldl (fun n c => n * 10 + (c.toNat - '0'.toNat)) 0

def takeDigits (cs : List Char) : List Char × List Char :=
  (cs.takeWhile Char.isDigit, cs.dropWhile Char.isDigit)

/-- Fraction part of a JSON number: either absent, or `.` followed by at
least one digit. Returns the fraction digits and the remaining input. -/
def parseFrac : List Char → Option (List Char × List Char)
  | '.' :: rest =>
    let (ds, r) := takeDigits rest
    if ds.isEmpty then none else some (ds, r)
  | cs => some (([] : List Char), cs)

/-- Exponent part of a JSON number: either absent, or `e`/`E`, an optional
sign and at least one digit. Returns the exponent value and the rest. -/
def parseExp : List Char → Option (Int × List Char)
  | [] => some ((0 : Int), ([] : List Char))
  | c :: rest =>
    if c = 'e' || c = 'E' then
      let (sgn, r1) : Int × List Char :=
        match rest with
        | '+' :: r => (1, r)
        | '-' :: r => (-1, r)
        | r => (1, r)
      let (ds, r2) := takeDigits r1
      if ds.isEmpty then none else some (sgn * (digitsToNat ds : Int), r2)
    else some ((0 : Int), c :: rest)

/-- Parse a complete JSON number literal (RFC 8259 grammar: optional `-`,
integer part without leading zeros, optional fraction, optional exponent).
Returns the value as `(mantissa, decimal exponent)`. -/
def parseJsonNumber (cs : List Char) : Option (Int × Int) :=
  let (neg, cs1) : Bool × List Char :=
    match cs with
    | '-' :: rest => (true, rest)
    | _ => (false, cs)
  let (intDs, cs2) := takeDigits cs1
  match intDs with
  | [] => none
  | d0 :: ds =>
    if d0 = '0' && !ds.isEmpty then none
    else
      match parseFrac cs2 with
      | none => none
      | some (fracDs, cs3) =>
        match parseExp cs3 with
        | none => none
        | some (e, cs4) =>
          if cs4.isEmpty then
            let mantNat := digitsToNat (intDs ++ fracDs)
            let mant : Int := if neg then -(mantNat : Int) else (mantNat : Int)
            some (mant, e - (fracDs.length : Int))
          else none

def hexVal (c : Char) : Option Nat :=
  if c.isDigit then some (c.toNat - 48)
  else if 'a' ≤ c && c ≤ 'f' then some (c.toNat - 87)
  else if 'A' ≤ c && c ≤ 'F' then some (c.toNat - 55)
  else none

/-- Body of a JSON string literal, after the opening quote: characters and
escapes up to the closing quote.  Returns the decoded content and the
input remaining after the closing quote.  (A `\uXXXX` escape denoting a
lone UTF-16 surrogate is outside Lean's `Char` and decodes to NUL; no
claim touches that corner.) -/
def parseJsonStringBody : List Char → Option (List Char × List Char)
  | [] => none
  | '"' :: rest => some (([] : List Char), rest)
  | '\\' :: 'u' :: h1 :: h2 :: h3 :: h4 :: rest =>
    match hexVal h1, hexVal h2, hexVal h3, hexVal h4 with
    | some a, some b, some c, some d =>
      match parseJsonStringBody rest with
      | some (content, rem) =>
        some (Char.ofNat (((a * 16 + b) * 16 + c) * 16 + d) :: content, rem)
      | none => none
    | _, _, _, _ => none
  | '\\' :: c :: rest =>
    let decoded : Option Char :=
      match c with
      | '"' => some '"'
      | '\\' => some '\\'
      | '/' => some '/'
      | 'b' => some '\x08'
      | 'f' => some '\x0c'
      | 'n' => some '\n'
      | 'r' => some '\r'
      | 't' => some '\t'
      | _ => none
    match decoded with
    | none => none
    | some d =>
      match parseJsonStringBody rest with
      | some (content, rem) => some (d :: content, rem)
      | none => none
  | '\\' :: [] => none
  | c :: rest =>
    if c.toNat < 32 then none
    else
      match parseJsonStringBody rest with
      | some (content, rem) => some (c :: content, rem)
      | none => none

/-- Modelled from the spec: `JSON.parse` applied to the (already trimmed)
example value line.  §3 fixes `Example.value` to be a JSON scalar, so the
model covers exactly the scalar JSON grammar (`null`, booleans, numbers,
strings); composite values are not modelled. -/
def jsonParse (s : String) : Option Json :=
  match s.toList with
  | [] => none
  | '"' :: rest =>
    match parseJsonStringBody rest with
    | some (content, []) => some (Json.str (String.mk content))
    | _ => none
  | cs =>
    if cs = "null".toList then some Json.null
    else if cs = "true".toList then some (Json.bool true)
    else if cs = "false".toList then some (Json.bool false)
    else
      match parseJsonNumber cs with
      | some (m, e) => some (Json.num m e)
      | none => none

/-! ## The example type-category check

`extractPathParamExamples` classifies each collected example value with

```
const typeOf = (value: string): string => {
  if (/^-?\d+$/.test(value)) return "number";
  if (typeof value === "boolean") return "boolean";
  return "string";
};
```

`value` is the result of `JSON.parse`, so `test` coerces it with
`String(value)`.  The only question asked of that coercion is whether it
matches `^-?\d+$`: for a JS number this holds exactly when the value is an
integer of magnitude below `1e21` (larger integers and non-integers print
with an exponent or a decimal point); for a string it is the regex on the
string itself; `String(true)`, `String(false)` and `String(null)` never
match.  (Double rounding can make a long literal denote an integer double;
the model reads the literal exactly — the divergence is confined to
literals with more than 17 significant digits, which no claim touches.) -/

def jsNumIntPattern (m e : Int) : Bool :=
  if 0 ≤ e then m.natAbs * 10 ^ e.toNat < 10 ^ 21
  else
    let d : Int := (10 : Int) ^ (-e).toNat
    (m % d == 0) && ((m / d).natAbs < 10 ^ 21)

def strIntPattern (s : String) : Bool :=
  let t := match s.toList with
    | '-' :: rest => rest
    | l => l
  !t.isEmpty && t.all Char.isDigit

/-- Whether `String(value)` matches `/^-?\d+$/` for a parsed JSON value. -/
def jsIntPatternTest : Json → Bool
  | .num m e => jsNumIntPattern m e
  | .str s => strIntPattern s
  | .bool _ => false
  | .null => false

/-- The parser's `typeOf` classifier (path-params-parser.ts:167-177). -/
def typeOf (v : Json) : String :=
  if jsIntPatternTest v then "number"
  else
    match v with
    | .bool _ => "boolean"
    | _ => "string"

/-! ## The IR data model

`Type` in the source (`../types`, external to the shown files) is a tagged
union over kinds; Lean reserves the name `Type`, so the embedding calls it
`SpotType`.  The spec (§3) lists the kinds relevant here: STRING, INT32,
INT64, FLOAT, DOUBLE, BOOLEAN, array-of-Type, object, type-reference, etc. -/

inductive SpotType where
  | string
  | int32
  | int64
  | float
  | double
  | boolean
  | date
  | number
  | voidT
  | array (elem : SpotType)
  | object (fields : List (String × SpotType))
  | typeRef (name : String)
  | union (members : List SpotType)
  | intConstant (value : Int)

/-- Modelled from the spec: the `TypeKind` string values of the external
types module (only the scalar kinds are exercised by any claim; the spec
maps the four numeric kinds to "number" and leaves the others as-is). -/
def kindName : SpotType → String
  | .string => "string"
  | .int32 => "int32"
  | .int64 => "int64"
  | .float => "float"
  | .double => "double"
  | .boolean => "boolean"
  | .date => "date"
  | .number => "number"
  | .voidT => "void"
  | .array _ => "array"
  | .object _ => "object"
  | .typeRef _ => "type-reference"
  | .union _ => "union"
  | .intConstant _ => "integer-constant"

/-- `spotTypesToJSTypesMap.get(type.kind) || type.kind`
(path-params-parser.ts:183-190): the four numeric kinds map to "number",
every other kind falls through to its own kind string. -/
def typeSpecifiedFor (t : SpotType) : String :=
  match t with
  | .int32 => "number"
  | .int64 => "number"
  | .float => "number"
  | .double => "number"
  | _ => kindName t

/-- `type.kind === TypeKind.STRING` (path-params-parser.ts:136). -/
def isStringKind : SpotType → Bool
  | .string => true
  | _ => false

/-! ## Parser-side declarations and errors -/

/-- A parser failure (`../errors`): `ParserError` or its
`OptionalNotAllowedError` variant, each carrying the offending file and
source position. -/
inductive PError where
  | parserError (message : String) (file : String) (position : Nat)
  | optionalNotAllowed (message : String) (file : String) (position : Nat)
deriving DecidableEq, Repr

/-- One JSDoc tag: `getTagName()` and `getComment()` (the latter is
`undefined` for a tag with no text). -/
structure Tag where
  tagName : String
  comment : Option String
deriving DecidableEq, Repr

/-- The JSDoc block of a declaration: `getDescription()` and `getTags()`. -/
structure JsDoc where
  description : String
  tags : List Tag
deriving DecidableEq, Repr

/-- One property of the `@pathParams` type literal, carrying exactly the
data the parser reads from the ts-morph `PropertySignature`.  `parsedType`
records the outcome of the external black-box `parseType` on the
property's type node (the type table is absorbed into that outcome). -/
structure PropertySignature where
  name : String
  hasQuestionToken : Bool
  questionTokenPos : Nat
  jsDoc : Option JsDoc
  parsedType : Except PError SpotType
  file : String
  pos : Nat

/-- The annotated `@pathParams` parameter declaration.  `typeLiteralProps`
is `some` when the declared type is an inline type literal (otherwise
`getParameterTypeAsTypeLiteralOrThrow` throws). -/
structure ParameterDeclaration where
  decorators : List String
  hasQuestionToken : Bool
  questionTokenPos : Nat
  file : String
  typeLiteralProps : Option (List PropertySignature)

/-- `Example` from `../definitions`: a named example value. -/
structure Example where
  name : String
  value : Json
deriving DecidableEq, Repr

/-- `PathParam` from `../definitions`.  `examples := none` models the
field being entirely absent from the returned object. -/
structure PathParam where
  name : String
  type : SpotType
  description : Option String
  examples : Option (List Example)

/-! ## The path-parameter parser -/

/-- `getPropertyName` (external helper, `./parser-helpers`): the
property's declared name. -/
def getPropertyName (p : PropertySignature) : String := p.name

/-- `extractPathParamName` (path-params-parser.ts:208-232): the name must
match `^[\w-]*$` (checked first) and be non-empty (checked second). -/
def extractPathParamName (p : PropertySignature) : Except PError String :=
  if !((getPropertyName p).toList.all fun c => c.isAlphanum || c = '_' || c = '-') then
    .error (.parserError
      "@pathParams property name may only contain alphanumeric, underscore and hyphen characters"
      p.file p.pos)
  else if (getPropertyName p).length = 0 then
    .error (.parserError "@pathParams property name must not be empty" p.file p.pos)
  else .ok (getPropertyName p)

/-- Modelled from the spec: `isPathParamTypeSafe` (external, `../http`) —
"a primitive safely representable as a single path segment, or an array of
such primitives" (§3/§4.1.3c); resolution of type references through the
type table is not modelled. -/
def isScalarKind : SpotType → Bool
  | .string => true
  | .int32 => true
  | .int64 => true
  | .float => true
  | .double => true
  | .boolean => true
  | .date => true
  | _ => false

def isPathParamTypeSafe (t : SpotType) : Bool :=
  isScalarKind t ||
    (match t with
     | .array u => isScalarKind u
     | _ => false)

/-- `extractPathParamType` (path-params-parser.ts:234-258): resolve the
property type via the black-box `parseType`, then reject non-URL-safe
types. -/
def extractPathParamType (p : PropertySignature) : Except PError SpotType := do
  let t ← p.parsedType
  if !isPathParamTypeSafe t then
    .error (.parserError
      "path parameter type may only be a URL-safe type, or an array of URL-safe types"
      p.file p.pos)
  else .ok t

/-- First line of an `@example` comment: `example?.split("\n")[0]?.trim()`
(the first chunk of a split always exists). -/
def exampleNameOf (raw : String) : String :=
  jsTrim ((jsSplitNewline raw).headD "")

/-- Second line of an `@example` comment:
`example?.split("\n")[1]?.trim()` — `none` when there is no second line. -/
def exampleValueOf (raw : String) : Option String :=
  ((jsSplitNewline raw).get? 1).map jsTrim

/-- The `rawExamples.every(...)` loop of `extractPathParamExamples`
(path-params-parser.ts:113-162), with the mutable `examples` array as the
accumulator and the mutable `exampleError` as the second component of the
result.  The branch for an unquoted STRING-typed example mirrors the
source exactly: the source constructs
`err(new ParserError("@pathParams string examples must be quoted", ...))`
but `return`s it from the `Array.every` callback, so the truthy `Result`
object merely continues the iteration — the error is discarded and the
example is neither pushed nor reported. -/
def examplesLoop (p : PropertySignature) (type : SpotType) :
    List String → List Example → List Example × Option PError
  | [], acc => (acc, none)
  | raw :: rest, acc =>
    let exampleName := exampleNameOf raw
    match exampleValueOf raw with
    | none => (acc, some (.parserError "@pathParams malformed example" p.file p.pos))
    | some v =>
      if exampleName = "" || v = "" then
        (acc, some (.parserError "@pathParams malformed example" p.file p.pos))
      else if acc.any fun ex => ex.name == exampleName then
        (acc, some (.parserError "@pathParams duplicate example name" p.file p.pos))
      else if isStringKind type && (!startsWithQuote v || !endsWithQuote v) then
        examplesLoop p type rest acc
      else
        match jsonParse v with
        | some parsedValue => examplesLoop p type rest (acc ++ [⟨exampleName, parsedValue⟩])
        | none => (acc, some (.parserError "could not parse @pathParams example" p.file p.pos))

/-- `extractPathParamExamples` (path-params-parser.ts:92-207).  Returns
`none` ("return;") when the property has no JSDoc or no `@example` tags;
otherwise collects the examples and applies the type-category check. -/
def extractPathParamExamples (p : PropertySignature) (type : SpotType) :
    Option (Except PError (List Example)) :=
  let rawExamples :=
    p.jsDoc.map fun d => (d.tags.filter fun t => t.tagName == "example").map fun t => t.comment
  match rawExamples with
  | none => none
  | some raws =>
    if raws.contains none then
      some (.error (.parserError "@pathParams example must not be empty" p.file p.pos))
    else if raws.length > 0 then
      match examplesLoop p type (raws.filterMap id) [] with
      | (_, some e) => some (.error e)
      | (examples, none) =>
        let typeOfExamples := examples.map fun ex => typeOf ex.value
        let typeSpecified := typeSpecifiedFor type
        if typeOfExamples.any fun t => t != typeSpecified then
          some (.error (.parserError "@pathParams type of example must match type of param" p.file p.pos))
        else some (.ok examples)
    else none

/-- `extractPathParam` (path-params-parser.ts:45-90): question-token
check, name validation, type validation, trimmed description, examples;
each failing step's error is returned unchanged (early return). -/
def extractPathParam (p : PropertySignature) : Except PError PathParam :=
  if p.hasQuestionToken then
    .error (.optionalNotAllowed "@pathParams property cannot be optional" p.file p.questionTokenPos)
  else
    match extractPathParamName p with
    | .error e => .error e
    | .ok name =>
      match extractPathParamType p with
      | .error e => .error e
      | .ok type =>
        let description := p.jsDoc.map fun d => jsTrim d.description
        match extractPathParamExamples p type with
        | some (.error e) => .error e
        | some (.ok exs) =>
          .ok { name := name, type := type, description := description, examples := some exs }
        | none =>
          .ok { name := name, type := type, description := description, examples := none }

/-- Lexicographic strict comparison of character lists; models the JS `>`
relational operator on strings (which compares UTF-16 code units — this
coincides with Lean's per-`Char` comparison on the Basic Multilingual
Plane, and in particular on every name a claim quantifies over). -/
def jsStrLtChars : List Char → List Char → Bool
  | [], [] => false
  | [], _ :: _ => true
  | _ :: _, [] => false
  | a :: as, b :: bs => if a < b then true else if b < a then false else jsStrLtChars as bs

/-- Model of the JS expression `a > b` on strings. -/
def jsStringGreaterThan (a b : String) : Bool :=
  jsStrLtChars b.toList a.toList

/-- The comparator of path-params-parser.ts:42:
`(a, b) => (b.name > a.name ? -1 : 1)`. -/
def sortComparator (a b : PathParam) : Int :=
  if jsStringGreaterThan b.name a.name then -1 else 1

def insertByCmp {α : Type} (cmp : α → α → Int) (x : α) : List α → List α
  | [] => [x]
  | y :: ys => if cmp x y < 0 then x :: y :: ys else y :: insertByCmp cmp x ys

/-- Model of ES2019+ `Array.prototype.sort` with a comparator: a stable
comparison sort.  On every input where the comparator is consistent — in
particular whenever the path-parameter names are pairwise distinct, the
only situation any claim quantifies over — every conforming implementation
returns this same list. -/
def jsSortStable {α : Type} (cmp : α → α → Int) (l : List α) : List α :=
  l.foldl (fun acc x => insertByCmp cmp x acc) []

/-- The `for` loop of `parsePathParams` (path-params-parser.ts:31-40):
each property is extracted in declaration order, the first failing
property's error is returned unchanged, and on success the extracted
parameters are collected in order. -/
def extractAllPathParams : List PropertySignature → Except PError (List PathParam)
  | [] => .ok []
  | p :: rest =>
    match extractPathParam p with
    | .error e => .error e
    | .ok pp =>
      match extractAllPathParams rest with
      | .error e => .error e
      | .ok pps => .ok (pp :: pps)

/-- `parsePathParams` (path-params-parser.ts:15-43).  The `none` result
models the exceptions thrown by `getDecoratorOrThrow` (declaration not
annotated) and `getParameterTypeAsTypeLiteralOrThrow` (declared type not
an inline type literal) — programming errors in the caller per §4.1.1. -/
def parsePathParams (parameter : ParameterDeclaration) :
    Option (Except PError (List PathParam)) :=
  if !parameter.decorators.contains "pathParams" then none
  else if parameter.hasQuestionToken then
    some (.error (.optionalNotAllowed "@pathParams parameter cannot be optional"
      parameter.file parameter.questionTokenPos))
  else
    match parameter.typeLiteralProps with
    | none => none
    | some props =>
      some (match extractAllPathParams props with
        | .error e => .error e
        | .ok pathParams => .ok (jsSortStable sortComparator pathParams))

/-! ## Generator-side IR -/

/-- A header declaration: `headerFieldName` is the wire name, `type` the
IR type (fields read by express-server.ts). -/
structure Header where
  headerFieldName : String
  type : SpotType

/-- `PathComponent`: tagged union of `static(content)` and
`dynamic(name, type)` (§3). -/
inductive PathComponent where
  | static (content : String)
  | dynamic (name : String) (type : SpotType)

/-- `Endpoint` (§3).  The JS objects `headers` and `customErrorTypes` are
modelled as association lists in their iteration order; a custom-error key
is the status code (its `Object.keys` string form is `toString code`, and
`parseInt` of that string is `code`). -/
structure Endpoint where
  method : String
  path : List PathComponent
  headers : List (String × Header)
  requestType : SpotType
  responseType : SpotType
  customErrorTypes : List (Nat × SpotType)
  defaultErrorType : SpotType

/-- `Api` (§3): the root aggregate, endpoints in iteration order. -/
structure Api where
  endpoints : List (String × Endpoint)

/-- Modelled from the spec: `isVoid` (external, `../validator`) — whether
the request type is "the empty/void type" (§4.3.1); resolution of type
references is not modelled. -/
def isVoid (_api : Api) (t : SpotType) : Bool :=
  match t with
  | .voidT => true
  | _ => false

/-- Modelled from the spec: the stable validator naming scheme of §6
("validator for endpoint X's request/response/defaultError, customError
for status code S, param/header named N"), represented structurally; the
external `endpointPropertyTypeName`/`validatorName` pair renders these to
strings. -/
inductive ValidatorRef where
  | request (endpointName : String)
  | response (endpointName : String)
  | defaultError (endpointName : String)
  | customError (endpointName : String) (statusCode : String)
  | param (endpointName : String) (name : String)
  | header (endpointName : String) (name : String)

/-- A TypeScript type annotation as produced by the external `typeNode` /
`promiseTypeNode` helpers: an IR type, or a `Promise` of one. -/
inductive TsType where
  | ofType (t : SpotType)
  | promiseOf (t : SpotType)

/-! ## The emitted TypeScript syntax tree

One constructor per `ts.create*` factory the generator calls, carrying the
arguments the generator supplies.  `validate` is the external
`validateStatement` helper (modelled from the spec §4.3: a statement that
runs the named validator on the target and aborts the request with the
given message on failure).  `outputTypeScriptSource` is the external
rendering pass; the embedding keeps the statement list handed to it. -/

mutual
inductive TsExpr where
  | ident (name : String)
  | strLit (s : String)
  | numLit (s : String)
  | propAccess (obj : TsExpr) (name : String)
  | elemAccess (obj : TsExpr) (index : TsExpr)
  | call (callee : TsExpr) (args : List TsExpr)
  | arrow (isAsync : Bool) (params : List String) (body : List TsStmt)
  | awaitE (e : TsExpr)
  | strictEq (lhs rhs : TsExpr)
  | binOp (lhs : TsExpr) (op : String) (rhs : TsExpr)
  | logicalAnd (lhs rhs : TsExpr)
  | newE (callee : TsExpr) (args : List TsExpr)
  | template (head : String) (spans : List (TsExpr × String))

inductive TsStmt where
  | exprS (e : TsExpr)
  | constDecl (name : String) (type : Option TsType) (init : TsExpr)
  | ifS (cond : TsExpr) (thenS : TsStmt) (elseS : Option TsStmt)
  | block (stmts : List TsStmt)
  | ret
  | throwS (e : TsExpr)
  | validate (target : TsExpr) (validator : ValidatorRef) (message : String)
  | importNs (name : String) (modulePath : String)
  | importNamed (names : List String) (modulePath : String)
  | funcDecl (exported : Bool) (isAsync : Bool) (name : String)
      (params : List (String × TsType)) (retType : TsType) (body : List TsStmt)
end

def IMPORTED_CORS_NAME : String := "cors"
def IMPORTED_EXPRESS_NAME : String := "express"
def EXPRESS_APP_NAME : String := "app"
def PORT_NAME : String := "PORT"
def REQUEST_PARAMETER : String := "req"
def RESPONSE_PARAMETER : String := "res"
def PARSED_REQUEST_VARIABLE : String := "request"
def RESPONSE_VARIABLE : String := "response"

/-- `generateValidateAndSendResponse` (express-server.ts:378-462). -/
def generateValidateAndSendResponse (endpointName : String) (endpoint : Endpoint) :
    List TsStmt :=
  let response := TsExpr.ident RESPONSE_VARIABLE
  let status := TsExpr.propAccess response "status"
  let data := TsExpr.propAccess response "data"
  let sendStatusAndData : List TsStmt :=
    [ .exprS (.call (.propAccess (.ident RESPONSE_PARAMETER) "status") [status]),
      .exprS (.call (.propAccess (.ident RESPONSE_PARAMETER) "json") [data]) ]
  (endpoint.customErrorTypes.map fun ct =>
    TsStmt.ifS (.strictEq status (.numLit (toString ct.1)))
      (.block
        ([ TsStmt.validate data (.customError endpointName (toString ct.1))
            ("Invalid error response for status " ++ toString ct.1) ]
          ++ sendStatusAndData ++ [TsStmt.ret]))
      none)
  ++ [ TsStmt.ifS
        (.logicalAnd (.binOp status ">=" (.numLit "200")) (.binOp status "<" (.numLit "300")))
        (.block [TsStmt.validate data (.response endpointName) "Invalid successful response"])
        (some (TsStmt.validate data (.defaultError endpointName) "Invalid error response")) ]
  ++ sendStatusAndData

/-- `generateEndpointRoute` (express-server.ts:187-376). -/
def generateEndpointRoute (api : Api) (endpointName : String) (endpoint : Endpoint) :
    TsStmt :=
  let includeRequest := !(isVoid api endpoint.requestType)
  TsStmt.exprS (.call
    (.propAccess (.ident EXPRESS_APP_NAME) (toLowerCase endpoint.method))
    [ .strLit
        (String.join (endpoint.path.map fun pathComponent =>
          match pathComponent with
          | .static content => content
          | .dynamic name _ => ":" ++ name)),
      .arrow true [REQUEST_PARAMETER, RESPONSE_PARAMETER]
        ((if includeRequest then
            [ TsStmt.constDecl PARSED_REQUEST_VARIABLE none
                (.propAccess (.ident REQUEST_PARAMETER) "body"),
              TsStmt.validate (.ident PARSED_REQUEST_VARIABLE) (.request endpointName)
                "Invalid request" ]
          else [])
        ++ (endpoint.path.filterMap fun pathComponent =>
              match pathComponent with
              | .dynamic name _ =>
                some [ TsStmt.constDecl name none
                        (.propAccess (.propAccess (.ident REQUEST_PARAMETER) "params") name),
                      TsStmt.validate (.ident name) (.param endpointName name)
                        ("Invalid path parameter " ++ name) ]
              | .static _ => none).flatten
        ++ (endpoint.headers.map fun h =>
              [ TsStmt.constDecl h.1 none
                  (.elemAccess (.propAccess (.ident REQUEST_PARAMETER) "headers")
                    (.strLit h.2.headerFieldName)),
                TsStmt.validate (.ident h.1) (.header endpointName h.1)
                  ("Invalid header " ++ h.2.headerFieldName) ]).flatten
        ++ [ TsStmt.constDecl RESPONSE_VARIABLE none
              (.awaitE (.call (.ident endpointName)
                ((if isVoid api endpoint.requestType then []
                  else [TsExpr.ident PARSED_REQUEST_VARIABLE])
                ++ (endpoint.path.filterMap fun pathComponent =>
                      match pathComponent with
                      | .dynamic name _ => some (TsExpr.ident name)
                      | .static _ => none)
                ++ endpoint.headers.map fun h => TsExpr.ident h.1))) ]
        ++ generateValidateAndSendResponse endpointName endpoint) ])

/-- `generateExpressServerSource` (express-server.ts:28-180): the statement
list handed to the external `outputTypeScriptSource` rendering pass. -/
def generateExpressServerSource (api : Api) : List TsStmt :=
  [ TsStmt.importNs IMPORTED_CORS_NAME "cors",
    TsStmt.importNs IMPORTED_EXPRESS_NAME "express",
    TsStmt.importNs "validators" "./validators" ]
  ++ (api.endpoints.map fun ne => TsStmt.importNamed [ne.1] ("./endpoints/" ++ ne.1))
  ++ [ TsStmt.constDecl PORT_NAME none (.numLit "3020"),
       TsStmt.constDecl EXPRESS_APP_NAME none (.call (.ident IMPORTED_EXPRESS_NAME) []),
       TsStmt.exprS (.call (.propAccess (.ident EXPRESS_APP_NAME) "use")
         [.call (.ident IMPORTED_CORS_NAME) []]),
       TsStmt.exprS (.call (.propAccess (.ident EXPRESS_APP_NAME) "use")
         [.call (.propAccess (.ident IMPORTED_EXPRESS_NAME) "json") []]) ]
  ++ (api.endpoints.map fun ne => generateEndpointRoute api ne.1 ne.2)
  ++ [ TsStmt.exprS (.call (.propAccess (.ident EXPRESS_APP_NAME) "listen")
        [ .ident PORT_NAME,
          .arrow false []
            [ TsStmt.exprS (.call (.propAccess (.ident "console") "log")
                [.template "Listening on port " [(TsExpr.ident PORT_NAME, "")]]) ] ]) ]

/-- Modelled from the spec: `gatherTypes` (external, `../../models`) walks
the endpoint's signature for the IR types it references (§4.4).  Only the
type-reference names filtered out of its result are ever used, and no
claim concerns the emitted imports, so the model collects the signature's
top-level types. -/
def gatherTypes (endpoint : Endpoint) : List SpotType :=
  [endpoint.requestType, endpoint.responseType, endpoint.defaultErrorType]
  ++ (endpoint.path.filterMap fun pathComponent =>
        match pathComponent with
        | .dynamic _ t => some t
        | .static _ => none)
  ++ endpoint.headers.map (fun h => h.2.type)
  ++ endpoint.customErrorTypes.map (fun ct => ct.2)

/-- `getTypeNamesForEndpoint` (express-server.ts:580-588):
`uniq(compact(gatherTypes(endpoint).map(t => t.kind === "type-reference" ? t.typeName : null)))`. -/
def getTypeNamesForEndpoint (endpoint : Endpoint) : List String :=
  ((gatherTypes endpoint).filterMap fun t =>
    match t with
    | .typeRef name => some name
    | _ => none).eraseDups

/-- `generateEndpointHandlerSource` (express-server.ts:464-578): the stub
module's statement list (import of referenced type names when any, then
the exported async function). -/
def generateEndpointHandlerSource (api : Api) (endpointName : String) (endpoint : Endpoint) :
    List TsStmt :=
  let typeNames := getTypeNamesForEndpoint endpoint
  (if typeNames.length > 0 then [TsStmt.importNamed typeNames "../types"] else [])
  ++ [ TsStmt.funcDecl true true endpointName
        ((if isVoid api endpoint.requestType then []
          else [("request", TsType.ofType endpoint.requestType)])
        ++ (endpoint.path.filterMap fun pathComponent =>
              match pathComponent with
              | .dynamic name t => some (name, TsType.ofType t)
              | .static _ => none)
        ++ endpoint.headers.map fun h => (h.1, TsType.ofType h.2.type))
        (TsType.promiseOf (.union
          ([SpotType.object [("status", .intConstant 200), ("data", endpoint.responseType)]]
          ++ (endpoint.customErrorTypes.map fun ct =>
                SpotType.object [("status", .intConstant ct.1), ("data", ct.2)])
          ++ [SpotType.object [("status", .number), ("data", endpoint.defaultErrorType)]])))
        [ TsStmt.throwS (.newE (.ident "Error")
            [.strLit ("Endpoint " ++ endpointName ++ " is not yet implemented!")]) ] ]

/-! ## Concrete declarations used as inputs to the theorems below -/

/-- A STRING-typed path-parameter property carrying one `@example` tag
whose value line `unquoted` is not enclosed in double quotes. -/
def unquotedExampleProp : PropertySignature :=
  { name := "id", hasQuestionToken := false, questionTokenPos := 0,
    jsDoc := some { description := "the id",
                    tags := [⟨"example", some "default\nunquoted"⟩] },
    parsedType := .ok .string, file := "api.ts", pos := 12 }

def unquotedExampleDecl : ParameterDeclaration :=
  { decorators := ["pathParams"], hasQuestionToken := false, questionTokenPos := 0,
    file := "api.ts", typeLiteralProps := some [unquotedExampleProp] }

/-- A FLOAT-typed property with one example whose value is the JSON
number `0.5`. -/
def floatHalfProp : PropertySignature :=
  { name := "weight", hasQuestionToken := false, questionTokenPos := 0,
    jsDoc := some { description := "", tags := [⟨"example", some "half\n0.5"⟩] },
    parsedType := .ok .float, file := "api.ts", pos := 3 }

/-- A STRING-typed property with two `@example` tags whose name lines are
both `a`; the first value line is unquoted, the second is quoted. -/
def dupNameStringProp : PropertySignature :=
  { name := "label", hasQuestionToken := false, questionTokenPos := 0,
    jsDoc := some { description := "",
                    tags := [⟨"example", some "a\nfoo"⟩, ⟨"example", some "a\n\"bar\""⟩] },
    parsedType := .ok .string, file := "dup.ts", pos := 9 }

/-- An INT32-typed property with two `@example` tags named `a`, both with
well-formed integer values. -/
def dupNameIntProp : PropertySignature :=
  { name := "count", hasQuestionToken := false, questionTokenPos := 0,
    jsDoc := some { description := "",
                    tags := [⟨"example", some "a\n1"⟩, ⟨"example", some "a\n2"⟩] },
    parsedType := .ok .int32, file := "dup2.ts", pos := 4 }

/-- A STRING-typed property carrying one `@example` tag with an unquoted
value line (input for the examples-present-iff-tags claim). -/
def droppedExampleProp : PropertySignature :=
  { name := "code", hasQuestionToken := false, questionTokenPos := 0,
    jsDoc := some { description := "a code",
                    tags := [⟨"example", some "sample\n12x"⟩] },
    parsedType := .ok .string, file := "drop.ts", pos := 21 }

/-- A property whose declared name contains a space (fails `^[\w-]*$`). -/
def badNameProp : PropertySignature :=
  { name := "a b", hasQuestionToken := false, questionTokenPos := 0,
    jsDoc := none, parsedType := .ok .string, file := "opt.ts", pos := 2 }

/-- An optional (question-token) property. -/
def optionalProp : PropertySignature :=
  { name := "q", hasQuestionToken := true, questionTokenPos := 5,
    jsDoc := none, parsedType := .ok .string, file := "opt.ts", pos := 4 }

/-- A declaration whose first property has a malformed name and whose
second property is optional. -/
def mixedDecl : ParameterDeclaration :=
  { decorators := ["pathParams"], hasQuestionToken := false, questionTokenPos := 0,
    file := "opt.ts", typeLiteralProps := some [badNameProp, optionalProp] }

/-- Whether a parser failure is the `OptionalNotAllowedError` variant. -/
def isOptionalNotAllowed : PError → Bool
  | .optionalNotAllowed _ _ _ => true
  | .parserError _ _ _ => false

/-- C1: the claim says an unquoted example value on a STRING-typed
property makes parsing fail with the quoting `ParserError` and is never
silently accepted or dropped.  The spec matches the evident intent of the
source — path-params-parser.ts:139 constructs exactly that error — but the
source `return`s it from inside the `Array.every` callback instead of
recording it in `exampleError`, so the truthy callback result silently
continues the loop: on this input parsing succeeds and the example is
dropped (the returned `PathParam` has an empty `examples` list). -/
theorem c1_unquoted_string_example_silently_dropped :
    parsePathParams unquotedExampleDecl =
      some (.ok [{ name := "id", type := .string, description := some "the id",
                   examples := some [] }]) := by
  rfl

/-- C2 counterexample: `0.5` parses as a JSON number, yet a FLOAT-typed
property with example value `0.5` is rejected with the type-mismatch
`ParserError` — refuting "a FLOAT- or DOUBLE-typed property accepts every
JSON-number example, integer-valued or not". -/
theorem c2_counterexample_float_rejects_noninteger_number :
    jsonParse "0.5" = some (Json.num 5 (-1))
    ∧ extractPathParamExamples floatHalfProp SpotType.float =
        some (.error (.parserError "@pathParams type of example must match type of param"
          "api.ts" 3)) := by
  exact ⟨rfl, rfl⟩

/-- C5 counterexample: both `@example` tags of this STRING-typed property
have the (trimmed) name line `a`, yet parsing succeeds — the first,
unquoted example is silently dropped by the quoting slip before the
duplicate check can see it — refuting "parsing of that property fails with
the ParserError duplicate example name". -/
theorem c5_counterexample_duplicate_names_accepted :
    exampleNameOf "a\nfoo" = exampleNameOf "a\n\"bar\""
    ∧ extractPathParamExamples dupNameStringProp SpotType.string =
        some (.ok [⟨"a", Json.str "bar"⟩]) := by
  exact ⟨rfl, rfl⟩

/-- C10: the claim says the `examples` field holds exactly one entry per
`@example` tag.  That is what the source intends, but the quoting slip of
path-params-parser.ts:139 silently drops an unquoted STRING-typed example:
this property carries one tag, yet the successfully parsed `PathParam`
carries an empty (though present) `examples` list. -/
theorem c10_one_tag_but_zero_example_entries :
    (droppedExampleProp.jsDoc.map fun d =>
        (d.tags.filter fun t => t.tagName == "example").length) = some 1
    ∧ extractPathParam droppedExampleProp =
        .ok { name := "code", type := .string, description := some "a code",
              examples := some [] } := by
  exact ⟨rfl, rfl⟩

/-- C4 counterexample: this declaration has an optional property, but its
first property fails name validation first, so `parsePathParams` fails
with a plain `ParserError`, not an `OptionalNotAllowedError` — refuting
the claim for declarations where an earlier property fails validation. -/
theorem c4_counterexample_earlier_error_preempts_optional :
    optionalProp.hasQuestionToken = true
    ∧ parsePathParams mixedDecl =
        some (.error (.parserError
          "@pathParams property name may only contain alphanumeric, underscore and hyphen characters"
          "opt.ts" 2))
    ∧ ((parsePathParams mixedDecl).map fun r =>
        match r with
        | .error e => isOptionalNotAllowed e
        | .ok _ => false) = some false := by
  exact ⟨rfl, rfl, rfl⟩

/-! ## Lemmas about the example loop and `mapM` -/

theorem examplesLoop_append (p : PropertySignature) (ty : SpotType)
    (l₁ l₂ : List String) (acc : List Example) :
    examplesLoop p ty (l₁ ++ l₂) acc =
      match examplesLoop p ty l₁ acc with
      | (acc', none) => examplesLoop p ty l₂ acc'
      | (acc', some e) => (acc', some e) := by
  induction l₁ generalizing acc with
  | nil => simp [examplesLoop]
  | cons raw rest ih =>
    simp only [List.cons_append, examplesLoop]
    split
    · rfl
    · split
      · rfl
      · split
        · rfl
        · split
          · exact ih acc
          · split
            · exact ih _
            · rfl

theorem map_some_contains_none (l : List String) :
    (l.map some).contains none = false := by
  induction l with
  | nil => rfl
  | cons x xs ih => simp [ih]

theorem filterMap_id_map_some {α : Type} (l : List α) :
    (l.map some).filterMap id = l := by
  induction l with
  | nil => rfl
  | cons x xs ih => simp [ih]

theorem any_map_bne_eq_not_all_beq {α : Type} (f : α → String) (s : String) (l : List α) :
    ((l.map f).any fun x => x != s) = !(l.all fun x => f x == s) := by
  induction l with
  | nil => rfl
  | cons x xs ih =>
    rw [List.map_cons, List.any_cons, List.all_cons, ih]
    simp [Bool.not_and, bne]

/-- C2 (amended): the example type check is not on the runtime JSON type.
For a property whose `@example` tags all survive the structural loop, the
final check classifies each collected value as "number" exactly when its
JS string coercion matches `/^-?\d+$/` (an optionally-signed digit run),
as "boolean" for a boolean, and as "string" otherwise; parsing succeeds
iff every classification equals the declared category ("number" for
INT32/INT64/FLOAT/DOUBLE, else the kind itself), otherwise it fails with
the `ParserError` "type of example must match type of param".  Hence a
FLOAT/DOUBLE property accepts exactly the integer-patterned numbers, and
a STRING property rejects quoted digit strings. -/
theorem extractPathParamExamples_type_check (p : PropertySignature) (t : SpotType)
    (raws : List String) (exs : List Example)
    (hraw : (p.jsDoc.map fun d =>
        (d.tags.filter fun tg => tg.tagName == "example").map fun tg => tg.comment)
      = some (raws.map some))
    (hne : raws ≠ [])
    (hloop : examplesLoop p t raws [] = (exs, none)) :
    extractPathParamExamples p t =
      some (if exs.all (fun ex => typeOf ex.value == typeSpecifiedFor t) then .ok exs
            else .error (.parserError "@pathParams type of example must match type of param"
              p.file p.pos)) := by
  unfold extractPathParamExamples
  rw [hraw]
  have hlen : (List.map some raws).length > 0 := by
    cases raws with
    | nil => exact absurd rfl hne
    | cons a l => simp
  simp only [map_some_contains_none, Bool.false_eq_true, if_false, hlen, if_true,
    filterMap_id_map_some, hloop]
  rw [any_map_bne_eq_not_all_beq (fun ex => typeOf ex.value) (typeSpecifiedFor t) exs]
  cases h : exs.all fun ex => typeOf ex.value == typeSpecifiedFor t <;> simp [h]

/-- C2 amended, instantiated: the FLOAT-typed property with example value
`0.5` goes through the structural loop successfully, and the final check
rejects it because `String(0.5)` does not match the integer pattern. -/
theorem extractPathParamExamples_type_check_witness :
    extractPathParamExamples floatHalfProp SpotType.float =
      some (if [Example.mk "half" (Json.num 5 (-1))].all
              (fun ex => typeOf ex.value == typeSpecifiedFor SpotType.float) then
              .ok [Example.mk "half" (Json.num 5 (-1))]
            else .error (.parserError "@pathParams type of example must match type of param"
              "api.ts" 3)) :=
  extractPathParamExamples_type_check floatHalfProp SpotType.float
    ["half\n0.5"] [Example.mk "half" (Json.num 5 (-1))] rfl (by decide) rfl

theorem extractAllPathParams_append_error
    (pre : List PropertySignature) (p : PropertySignature)
    (rest : List PropertySignature) (ps : List PathParam) (e : PError)
    (hpre : extractAllPathParams pre = .ok ps)
    (hp : extractPathParam p = .error e) :
    extractAllPathParams (pre ++ p :: rest) = .error e := by
  induction pre generalizing ps with
  | nil => simp [extractAllPathParams, hp]
  | cons a l ih =>
    rw [List.cons_append]
    simp only [extractAllPathParams] at hpre ⊢
    cases ha : extractPathParam a with
    | error ea => rw [ha] at hpre; simp at hpre
    | ok pp =>
      rw [ha] at hpre
      cases hl : extractAllPathParams l with
      | error el => rw [hl] at hpre; simp at hpre
      | ok pps =>
        rw [hl] at hpre
        rw [ih pps hl]

/-- C4 (amended): an optional `@pathParams` parameter always fails with
the `OptionalNotAllowedError`, and an optional property fails with the
(property-level) `OptionalNotAllowedError` provided every property
before it validates successfully — the parser is fail-fast, so an earlier
property's failure preempts the optionality error (see the
counterexample). -/
theorem parsePathParams_optional_fails (parameter : ParameterDeclaration)
    (hdec : parameter.decorators.contains "pathParams" = true) :
    (parameter.hasQuestionToken = true →
      parsePathParams parameter =
        some (.error (.optionalNotAllowed "@pathParams parameter cannot be optional"
          parameter.file parameter.questionTokenPos)))
    ∧ (∀ pre p rest ps, parameter.hasQuestionToken = false →
        parameter.typeLiteralProps = some (pre ++ p :: rest) →
        extractAllPathParams pre = .ok ps →
        p.hasQuestionToken = true →
        parsePathParams parameter =
          some (.error (.optionalNotAllowed "@pathParams property cannot be optional"
            p.file p.questionTokenPos))) := by
  have hmem : "pathParams" ∈ parameter.decorators := by simpa using hdec
  constructor
  · intro hq
    simp [parsePathParams, hq, hmem]
  · intro pre p rest ps hq hprops hpre hpq
    have hp : extractPathParam p =
        .error (.optionalNotAllowed "@pathParams property cannot be optional"
          p.file p.questionTokenPos) := by
      simp [extractPathParam, hpq]
    have hall := extractAllPathParams_append_error pre p rest ps _ hpre hp
    simp [parsePathParams, hq, hmem, hprops, hall]

/-- A well-formed STRING-typed property named `ok`. -/
def plainOkProp : PropertySignature :=
  { name := "ok", hasQuestionToken := false, questionTokenPos := 0,
    jsDoc := none, parsedType := .ok .string, file := "opt.ts", pos := 1 }

/-- An optional (question-token) parameter declaration. -/
def optionalParamDecl : ParameterDeclaration :=
  { decorators := ["pathParams"], hasQuestionToken := true,
    questionTokenPos := 8, file := "w.ts", typeLiteralProps := none }

/-- A declaration with one valid property followed by an optional one. -/
def okThenOptionalDecl : ParameterDeclaration :=
  { decorators := ["pathParams"], hasQuestionToken := false,
    questionTokenPos := 0, file := "opt.ts",
    typeLiteralProps := some [plainOkProp, optionalProp] }

/-- Concrete instance of the amended optionality behaviour: an optional
parameter declaration fails with the parameter-level error, and a
declaration whose sole properties are one valid property followed by an
optional one fails with the property-level error. -/
theorem parsePathParams_optional_fails_witness :
    (parsePathParams optionalParamDecl =
      some (.error (.optionalNotAllowed "@pathParams parameter cannot be optional" "w.ts" 8)))
    ∧ (parsePathParams okThenOptionalDecl =
      some (.error (.optionalNotAllowed "@pathParams property cannot be optional" "opt.ts" 5))) :=
  ⟨(parsePathParams_optional_fails optionalParamDecl rfl).1 rfl,
   (parsePathParams_optional_fails okThenOptionalDecl rfl).2
     [plainOkProp] optionalProp []
     [{ name := "ok", type := .string, description := none, examples := none }]
     rfl rfl rfl rfl⟩

/-- C5 (amended): two `@example` tags with the same trimmed name line do
produce the `ParserError` "duplicate example name" provided every earlier
tag was accepted into the example list (well-formed, quoted when the
property type is STRING, and JSON-parseable) and the duplicate tag itself
has a non-empty name and value line — the loop is fail-fast and the
duplicate check only sees previously accepted examples (see the
counterexample for the unquoted-drop case). -/
theorem extractPathParamExamples_duplicate_name (p : PropertySignature) (t : SpotType)
    (pre : List String) (raw : String) (rest : List String) (exs : List Example) (v : String)
    (hraw : (p.jsDoc.map fun d =>
        (d.tags.filter fun tg => tg.tagName == "example").map fun tg => tg.comment)
      = some ((pre ++ raw :: rest).map some))
    (hpre : examplesLoop p t pre [] = (exs, none))
    (hname : exampleNameOf raw ≠ "")
    (hv : exampleValueOf raw = some v)
    (hvne : v ≠ "")
    (hdup : (exs.any fun ex => ex.name == exampleNameOf raw) = true) :
    extractPathParamExamples p t =
      some (.error (.parserError "@pathParams duplicate example name" p.file p.pos)) := by
  unfold extractPathParamExamples
  rw [hraw]
  have hlen : (List.map some (pre ++ raw :: rest)).length > 0 := by
    cases pre <;> simp
  simp only [map_some_contains_none, Bool.false_eq_true, if_false, hlen, if_true,
    filterMap_id_map_some]
  rw [examplesLoop_append p t pre (raw :: rest) [], hpre]
  simp only [examplesLoop, hv, hname, hvne, hdup, decide_eq_true_eq, if_false,
    Bool.false_or, decide_not, if_true]
  simp [hname, hvne, hdup]

/-- Concrete instance of the amended duplicate-name behaviour: an
INT32-typed property with two well-formed examples both named `a` fails
with the duplicate-name error. -/
theorem extractPathParamExamples_duplicate_name_witness :
    extractPathParamExamples dupNameIntProp SpotType.int32 =
      some (.error (.parserError "@pathParams duplicate example name" "dup2.ts" 4)) :=
  extractPathParamExamples_duplicate_name dupNameIntProp SpotType.int32
    ["a\n1"] "a\n2" [] [Example.mk "a" (Json.num 1 0)] "2"
    rfl rfl (by decide) rfl (by decide) (by decide)

/-! ## Sortedness of the returned path parameters -/

theorem insertByCmp_perm {α : Type} (cmp : α → α → Int) (x : α) (l : List α) :
    List.Perm (insertByCmp cmp x l) (x :: l) := by
  induction l with
  | nil => exact List.Perm.refl _
  | cons y ys ih =>
    unfold insertByCmp
    by_cases h : cmp x y < 0
    · rw [if_pos h]
    · rw [if_neg h]
      exact (ih.cons y).trans (List.Perm.swap x y ys)

theorem foldl_insertByCmp_perm {α : Type} (cmp : α → α → Int) (l acc : List α) :
    List.Perm (l.foldl (fun a x => insertByCmp cmp x a) acc) (acc ++ l) := by
  induction l generalizing acc with
  | nil => simp
  | cons x xs ih =>
    rw [List.foldl_cons]
    refine (ih (insertByCmp cmp x acc)).trans ?_
    refine ((insertByCmp_perm cmp x acc).append_right xs).trans ?_
    exact List.perm_middle.symm

theorem jsSortStable_perm {α : Type} (cmp : α → α → Int) (l : List α) :
    List.Perm (jsSortStable cmp l) l := by
  simpa using foldl_insertByCmp_perm cmp l []

theorem jsStrLtChars_iff (l₁ l₂ : List Char) :
    jsStrLtChars l₁ l₂ = true ↔ List.Lex (· < ·) l₁ l₂ := by
  induction l₁ generalizing l₂ with
  | nil =>
    cases l₂ with
    | nil =>
      refine iff_of_false (by simp [jsStrLtChars]) ?_
      intro h
      cases h
    | cons b bs => exact iff_of_true rfl List.Lex.nil
  | cons a as ih =>
    cases l₂ with
    | nil =>
      refine iff_of_false (by simp [jsStrLtChars]) ?_
      intro h
      cases h
    | cons b bs =>
      by_cases hab : a < b
      · refine iff_of_true ?_ (List.Lex.rel hab)
        simp [jsStrLtChars, hab]
      · by_cases hba : b < a
        · refine iff_of_false ?_ ?_
          · simp [jsStrLtChars, hab, hba]
          · intro h
            cases h with
            | cons h2 => exact absurd hba (lt_irrefl a)
            | rel h2 => exact hab h2
        · have heq : a = b := le_antisymm (le_of_not_lt hba) (le_of_not_lt hab)
          subst heq
          constructor
          · intro h
            refine List.Lex.cons ?_
            refine (ih bs).mp ?_
            simpa [jsStrLtChars, lt_irrefl] using h
          · intro h
            have h2 : List.Lex (· < ·) as bs := by
              cases h with
              | cons h3 => exact h3
              | rel h3 => exact absurd h3 (lt_irrefl a)
            simpa [jsStrLtChars, lt_irrefl] using (ih bs).mpr h2

/-- The JS string comparison agrees with Mathlib's lexicographic order on
`String`. -/
theorem jsStringGreaterThan_iff (a b : String) :
    jsStringGreaterThan a b = true ↔ b < a := by
  rw [String.lt_iff_toList_lt]
  exact jsStrLtChars_iff b.toList a.toList

theorem sortComparator_neg_iff (x y : PathParam) :
    sortComparator x y < 0 ↔ x.name < y.name := by
  unfold sortComparator
  by_cases h : jsStringGreaterThan y.name x.name = true
  · rw [if_pos h]
    exact iff_of_true (by norm_num) ((jsStringGreaterThan_iff y.name x.name).mp h)
  · rw [if_neg h]
    refine iff_of_false (by norm_num) ?_
    intro hlt
    exact h ((jsStringGreaterThan_iff y.name x.name).mpr hlt)

theorem insertByCmp_sorted (x : PathParam) (l : List PathParam)
    (hl : l.Pairwise fun a b => a.name < b.name)
    (hx : ∀ y ∈ l, x.name ≠ y.name) :
    (insertByCmp sortComparator x l).Pairwise fun a b => a.name < b.name := by
  induction l with
  | nil => simp [insertByCmp]
  | cons y ys ih =>
    rw [List.pairwise_cons] at hl
    obtain ⟨hy, hys⟩ := hl
    unfold insertByCmp
    by_cases h : sortComparator x y < 0
    · rw [if_pos h]
      rw [List.pairwise_cons]
      refine ⟨?_, List.pairwise_cons.mpr ⟨hy, hys⟩⟩
      intro z hz
      rcases List.mem_cons.mp hz with rfl | hz
      · exact (sortComparator_neg_iff x z).mp h
      · exact lt_trans ((sortComparator_neg_iff x y).mp h) (hy z hz)
    · rw [if_neg h]
      rw [List.pairwise_cons]
      constructor
      · intro z hz
        rcases List.mem_cons.mp ((insertByCmp_perm sortComparator x ys).mem_iff.mp hz) with
          rfl | hz2
        · rcases Ne.lt_or_lt (hx y (List.mem_cons_self y ys)) with hlt | hgt
          · exact absurd ((sortComparator_neg_iff z y).mpr hlt) h
          · exact hgt
        · exact hy z hz2
      · exact ih hys fun z hz => hx z (List.mem_cons_of_mem y hz)

theorem foldl_insertByCmp_sorted (l acc : List PathParam)
    (hacc : acc.Pairwise fun a b => a.name < b.name)
    (hne : (acc ++ l).Pairwise fun a b => a.name ≠ b.name) :
    (l.foldl (fun a x => insertByCmp sortComparator x a) acc).Pairwise
      fun a b => a.name < b.name := by
  induction l generalizing acc with
  | nil => simpa using hacc
  | cons x xs ih =>
    rw [List.foldl_cons]
    have hsplit := List.pairwise_append.mp hne
    apply ih
    · apply insertByCmp_sorted x acc hacc
      intro y hy
      exact (hsplit.2.2 y hy x (List.mem_cons_self x xs)).symm
    · have hperm : List.Perm (insertByCmp sortComparator x acc ++ xs) (acc ++ x :: xs) := by
        refine ((insertByCmp_perm sortComparator x acc).append_right xs).trans ?_
        exact List.perm_middle.symm
      exact (@List.Perm.pairwise_iff PathParam (fun a b => a.name ≠ b.name)
        Ne.symm _ _ hperm).mpr hne

theorem jsSortStable_sorted (l : List PathParam)
    (hne : l.Pairwise fun a b => a.name ≠ b.name) :
    (jsSortStable sortComparator l).Pairwise fun a b => a.name < b.name := by
  unfold jsSortStable
  exact foldl_insertByCmp_sorted l [] (by simp) (by simpa using hne)

theorem extractPathParamName_ok (p : PropertySignature) (n : String)
    (h : extractPathParamName p = .ok n) : n = p.name := by
  unfold extractPathParamName at h
  split at h
  · exact absurd h (by simp)
  · split at h
    · exact absurd h (by simp)
    · injection h with h2
      exact h2.symm

theorem extractPathParam_ok_name (p : PropertySignature) (pp : PathParam)
    (h : extractPathParam p = .ok pp) : pp.name = p.name := by
  unfold extractPathParam at h
  split at h
  · exact absurd h (by simp)
  · split at h
    next e heq => exact absurd h (by simp)
    next name heq =>
      split at h
      next e heq2 => exact absurd h (by simp)
      next ty heq2 =>
        split at h
        next e heq3 => exact absurd h (by simp)
        next exs heq3 =>
          injection h with h2
          rw [← h2]
          exact extractPathParamName_ok p name heq
        next heq3 =>
          injection h with h2
          rw [← h2]
          exact extractPathParamName_ok p name heq

theorem extractAllPathParams_ok_names (props : List PropertySignature)
    (ps : List PathParam) (h : extractAllPathParams props = .ok ps) :
    ps.map PathParam.name = props.map PropertySignature.name := by
  induction props generalizing ps with
  | nil =>
    unfold extractAllPathParams at h
    injection h with h2
    subst h2
    rfl
  | cons p rest ih =>
    unfold extractAllPathParams at h
    cases hp : extractPathParam p with
    | error e => rw [hp] at h; exact absurd h (by simp)
    | ok pp =>
      rw [hp] at h
      cases hr : extractAllPathParams rest with
      | error e => rw [hr] at h; exact absurd h (by simp)
      | ok pps =>
        rw [hr] at h
        injection h with h2
        rw [← h2, List.map_cons, List.map_cons, ih pps hr,
          extractPathParam_ok_name p pp hp]

/-- C3: for an annotated, non-optional declaration whose properties all
validate and have pairwise-distinct names, `parsePathParams` succeeds with
exactly one `PathParam` per declared property (a permutation of the
extraction results, same length as the property list) sorted in strictly
ascending lexicographic order of name. -/
theorem parsePathParams_sorted (parameter : ParameterDeclaration)
    (props : List PropertySignature) (ps : List PathParam)
    (hdec : parameter.decorators.contains "pathParams" = true)
    (hq : parameter.hasQuestionToken = false)
    (hprops : parameter.typeLiteralProps = some props)
    (hall : extractAllPathParams props = .ok ps)
    (hnames : props.Pairwise fun a b => a.name ≠ b.name) :
    parsePathParams parameter = some (.ok (jsSortStable sortComparator ps))
    ∧ List.Perm (jsSortStable sortComparator ps) ps
    ∧ ps.length = props.length
    ∧ (jsSortStable sortComparator ps).Pairwise fun a b => a.name < b.name := by
  have hmem : "pathParams" ∈ parameter.decorators := by simpa using hdec
  have hmap := extractAllPathParams_ok_names props ps hall
  have hlen : ps.length = props.length := by
    have h2 := congrArg List.length hmap
    simpa using h2
  have hpsne : ps.Pairwise fun a b => a.name ≠ b.name := by
    have h1 : (ps.map PathParam.name).Pairwise Ne := by
      rw [hmap]
      exact List.pairwise_map.mpr hnames
    exact List.pairwise_map.mp h1
  refine ⟨?_, jsSortStable_perm _ _, hlen, jsSortStable_sorted ps hpsne⟩
  simp [parsePathParams, hq, hmem, hprops, hall]

/-- The property named `b`, declared first (spec §8's example). -/
def namedBProp : PropertySignature :=
  { name := "b", hasQuestionToken := false, questionTokenPos := 0,
    jsDoc := none, parsedType := .ok .string, file := "s.ts", pos := 1 }

/-- The property named `a`, declared second. -/
def namedAProp : PropertySignature :=
  { name := "a", hasQuestionToken := false, questionTokenPos := 0,
    jsDoc := none, parsedType := .ok .string, file := "s.ts", pos := 2 }

/-- The property named `c`, declared third. -/
def namedCProp : PropertySignature :=
  { name := "c", hasQuestionToken := false, questionTokenPos := 0,
    jsDoc := none, parsedType := .ok .string, file := "s.ts", pos := 3 }

/-- A declaration with properties declared in the order `b`, `a`, `c`. -/
def bacDecl : ParameterDeclaration :=
  { decorators := ["pathParams"], hasQuestionToken := false, questionTokenPos := 0,
    file := "s.ts", typeLiteralProps := some [namedBProp, namedAProp, namedCProp] }

/-- Instance of the sorting theorem on spec §8's example: properties
declared `b`, `a`, `c` come back as `a`, `b`, `c`. -/
theorem parsePathParams_sorted_witness :
    (parsePathParams bacDecl =
      some (.ok (jsSortStable sortComparator
        [{ name := "b", type := .string, description := none, examples := none },
         { name := "a", type := .string, description := none, examples := none },
         { name := "c", type := .string, description := none, examples := none }]))
    ∧ List.Perm (jsSortStable sortComparator
        [{ name := "b", type := .string, description := none, examples := none },
         { name := "a", type := .string, description := none, examples := none },
         { name := "c", type := .string, description := none, examples := none }])
        [{ name := "b", type := .string, description := none, examples := none },
         { name := "a", type := .string, description := none, examples := none },
         { name := "c", type := .string, description := none, examples := none }]
    ∧ ([{ name := "b", type := SpotType.string, description := none, examples := none },
        { name := "a", type := SpotType.string, description := none, examples := none },
        { name := "c", type := SpotType.string, description := none, examples := none }]
          : List PathParam).length = [namedBProp, namedAProp, namedCProp].length
    ∧ (jsSortStable sortComparator
        [{ name := "b", type := .string, description := none, examples := none },
         { name := "a", type := .string, description := none, examples := none },
         { name := "c", type := .string, description := none, examples := none }]).Pairwise
        fun a b => a.name < b.name)
    ∧ jsSortStable sortComparator
        [{ name := "b", type := SpotType.string, description := none, examples := none },
         { name := "a", type := SpotType.string, description := none, examples := none },
         { name := "c", type := SpotType.string, description := none, examples := none }]
      = [{ name := "a", type := .string, description := none, examples := none },
         { name := "b", type := .string, description := none, examples := none },
         { name := "c", type := .string, description := none, examples := none }] :=
  ⟨parsePathParams_sorted bacDecl [namedBProp, namedAProp, namedCProp]
      [{ name := "b", type := .string, description := none, examples := none },
       { name := "a", type := .string, description := none, examples := none },
       { name := "c", type := .string, description := none, examples := none }]
      rfl rfl rfl rfl
      (by simp [namedBProp, namedAProp, namedCProp, List.pairwise_cons]),
   rfl⟩

/-! ## Generator claims -/

/-- The framework bootstrap statements emitted before the route
registrations: the three namespace imports, one named import per
endpoint, the port and app constants, and the two `app.use` calls. -/
def serverBootstrapStmts (api : Api) : List TsStmt :=
  [ TsStmt.importNs "cors" "cors",
    TsStmt.importNs "express" "express",
    TsStmt.importNs "validators" "./validators" ]
  ++ (api.endpoints.map fun ne => TsStmt.importNamed [ne.1] ("./endpoints/" ++ ne.1))
  ++ [ TsStmt.constDecl "PORT" none (.numLit "3020"),
       TsStmt.constDecl "app" none (.call (.ident "express") []),
       TsStmt.exprS (.call (.propAccess (.ident "app") "use") [.call (.ident "cors") []]),
       TsStmt.exprS (.call (.propAccess (.ident "app") "use")
         [.call (.propAccess (.ident "express") "json") []]) ]

/-- The final `app.listen(PORT, ...)` statement. -/
def serverListenStmt : TsStmt :=
  TsStmt.exprS (.call (.propAccess (.ident "app") "listen")
    [ .ident "PORT",
      .arrow false []
        [ TsStmt.exprS (.call (.propAccess (.ident "console") "log")
            [.template "Listening on port " [(TsExpr.ident "PORT", "")]]) ] ])

/-- C6: each endpoint's route registration is a single call statement on
the app object whose method name is the endpoint's HTTP method
lower-cased, whose first argument is the path string obtained by
concatenating, in path order, each static component's content verbatim
and `:` followed by the name of each dynamic component, and whose second
argument is an asynchronous (arrow) handler function; the emitted server
source consists of the bootstrap statements, then exactly one such
registration per endpoint in iteration order, then the listen call. -/
theorem generateEndpointRoute_registration (api : Api) (endpointName : String)
    (endpoint : Endpoint) :
    (∃ handlerBody,
      generateEndpointRoute api endpointName endpoint =
        TsStmt.exprS (.call
          (.propAccess (.ident "app") (toLowerCase endpoint.method))
          [ .strLit (String.join (endpoint.path.map fun pc =>
              match pc with
              | .static content => content
              | .dynamic name _ => ":" ++ name)),
            .arrow true ["req", "res"] handlerBody ]))
    ∧ generateExpressServerSource api =
        serverBootstrapStmts api
        ++ (api.endpoints.map fun ne => generateEndpointRoute api ne.1 ne.2)
        ++ [serverListenStmt] := by
  constructor
  · exact ⟨_, rfl⟩
  · simp [generateExpressServerSource, serverBootstrapStmts, serverListenStmt,
      IMPORTED_CORS_NAME, IMPORTED_EXPRESS_NAME, EXPRESS_APP_NAME, PORT_NAME]

/-- C7: for every declared custom-error status code, the response
handling contains — among its first `customErrorTypes.length` statements,
i.e. before the success/default-error branching — an if-statement guarded
by strict equality of the handler result's status with that code, whose
block validates the data against that code's custom-error validator with
message "Invalid error response for status {code}", emits status and JSON
payload, and ends in an unconditional return; everything after those
branches is exactly the success/default-error if-statement followed by
the plain status/json emission. -/
theorem generateValidateAndSendResponse_customError (endpointName : String)
    (endpoint : Endpoint) (code : Nat) (ty : SpotType)
    (h : (code, ty) ∈ endpoint.customErrorTypes) :
    (TsStmt.ifS
        (.strictEq (.propAccess (.ident "response") "status") (.numLit (toString code)))
        (.block
          [ TsStmt.validate (.propAccess (.ident "response") "data")
              (.customError endpointName (toString code))
              ("Invalid error response for status " ++ toString code),
            TsStmt.exprS (.call (.propAccess (.ident "res") "status")
              [.propAccess (.ident "response") "status"]),
            TsStmt.exprS (.call (.propAccess (.ident "res") "json")
              [.propAccess (.ident "response") "data"]),
            TsStmt.ret ])
        none)
      ∈ (generateValidateAndSendResponse endpointName endpoint).take
          endpoint.customErrorTypes.length
    ∧ (generateValidateAndSendResponse endpointName endpoint).drop
          endpoint.customErrorTypes.length =
        [ TsStmt.ifS
            (.logicalAnd
              (.binOp (.propAccess (.ident "response") "status") ">=" (.numLit "200"))
              (.binOp (.propAccess (.ident "response") "status") "<" (.numLit "300")))
            (.block [TsStmt.validate (.propAccess (.ident "response") "data")
              (.response endpointName) "Invalid successful response"])
            (some (TsStmt.validate (.propAccess (.ident "response") "data")
              (.defaultError endpointName) "Invalid error response")),
          TsStmt.exprS (.call (.propAccess (.ident "res") "status")
            [.propAccess (.ident "response") "status"]),
          TsStmt.exprS (.call (.propAccess (.ident "res") "json")
            [.propAccess (.ident "response") "data"]) ] := by
  have hform : generateValidateAndSendResponse endpointName endpoint =
      (endpoint.customErrorTypes.map fun ct =>
        TsStmt.ifS
          (.strictEq (.propAccess (.ident "response") "status") (.numLit (toString ct.1)))
          (.block
            [ TsStmt.validate (.propAccess (.ident "response") "data")
                (.customError endpointName (toString ct.1))
                ("Invalid error response for status " ++ toString ct.1),
              TsStmt.exprS (.call (.propAccess (.ident "res") "status")
                [.propAccess (.ident "response") "status"]),
              TsStmt.exprS (.call (.propAccess (.ident "res") "json")
                [.propAccess (.ident "response") "data"]),
              TsStmt.ret ])
          none)
      ++ [ TsStmt.ifS
            (.logicalAnd
              (.binOp (.propAccess (.ident "response") "status") ">=" (.numLit "200"))
              (.binOp (.propAccess (.ident "response") "status") "<" (.numLit "300")))
            (.block [TsStmt.validate (.propAccess (.ident "response") "data")
              (.response endpointName) "Invalid successful response"])
            (some (TsStmt.validate (.propAccess (.ident "response") "data")
              (.defaultError endpointName) "Invalid error response")),
          TsStmt.exprS (.call (.propAccess (.ident "res") "status")
            [.propAccess (.ident "response") "status"]),
          TsStmt.exprS (.call (.propAccess (.ident "res") "json")
            [.propAccess (.ident "response") "data"]) ] := by
    simp [generateValidateAndSendResponse, RESPONSE_VARIABLE, RESPONSE_PARAMETER]
  rw [hform]
  have hlen : endpoint.customErrorTypes.length =
      (endpoint.customErrorTypes.map fun ct =>
        TsStmt.ifS
          (.strictEq (.propAccess (.ident "response") "status") (.numLit (toString ct.1)))
          (.block
            [ TsStmt.validate (.propAccess (.ident "response") "data")
                (.customError endpointName (toString ct.1))
                ("Invalid error response for status " ++ toString ct.1),
              TsStmt.exprS (.call (.propAccess (.ident "res") "status")
                [.propAccess (.ident "response") "status"]),
              TsStmt.exprS (.call (.propAccess (.ident "res") "json")
                [.propAccess (.ident "response") "data"]),
              TsStmt.ret ])
          none).length := by
    rw [List.length_map]
  constructor
  · rw [hlen, List.take_left]
    refine List.mem_map.mpr ⟨(code, ty), h, rfl⟩
  · rw [hlen, List.drop_left]

/-- An endpoint with one custom error type for status 404 (spec §8's
end-to-end example). -/
def notFoundEndpoint : Endpoint :=
  { method := "GET", path := [.static "/users/", .dynamic "id" .int32], headers := [],
    requestType := .voidT, responseType := .object [],
    customErrorTypes := [(404, .object [("message", .string)])],
    defaultErrorType := .object [] }

/-- Instance of the custom-error branching theorem on an endpoint with one
custom error type for status 404. -/
theorem generateValidateAndSendResponse_customError_witness :
    (TsStmt.ifS
        (.strictEq (.propAccess (.ident "response") "status") (.numLit (toString 404)))
        (.block
          [ TsStmt.validate (.propAccess (.ident "response") "data")
              (.customError "getUser" (toString 404))
              ("Invalid error response for status " ++ toString 404),
            TsStmt.exprS (.call (.propAccess (.ident "res") "status")
              [.propAccess (.ident "response") "status"]),
            TsStmt.exprS (.call (.propAccess (.ident "res") "json")
              [.propAccess (.ident "response") "data"]),
            TsStmt.ret ])
        none)
      ∈ (generateValidateAndSendResponse "getUser" notFoundEndpoint).take
          notFoundEndpoint.customErrorTypes.length
    ∧ (generateValidateAndSendResponse "getUser" notFoundEndpoint).drop
          notFoundEndpoint.customErrorTypes.length =
        [ TsStmt.ifS
            (.logicalAnd
              (.binOp (.propAccess (.ident "response") "status") ">=" (.numLit "200"))
              (.binOp (.propAccess (.ident "response") "status") "<" (.numLit "300")))
            (.block [TsStmt.validate (.propAccess (.ident "response") "data")
              (.response "getUser") "Invalid successful response"])
            (some (TsStmt.validate (.propAccess (.ident "response") "data")
              (.defaultError "getUser") "Invalid error response")),
          TsStmt.exprS (.call (.propAccess (.ident "res") "status")
            [.propAccess (.ident "response") "status"]),
          TsStmt.exprS (.call (.propAccess (.ident "res") "json")
            [.propAccess (.ident "response") "data"]) ] :=
  generateValidateAndSendResponse_customError "getUser" notFoundEndpoint 404
    (.object [("message", .string)]) (by simp [notFoundEndpoint])

/-- The statement list of the handler arrow function bound by a route
registration statement. -/
def routeHandlerStmts : TsStmt → List TsStmt
  | .exprS (.call _ (_ :: .arrow _ _ body :: _)) => body
  | _ => []

/-- C8: the handler body binds `response` to the awaited call of the
user-supplied endpoint function, whose arguments are, in order: the
parsed request body exactly when the request type is non-void, then one
identifier per dynamic path component in path order, then one identifier
per declared header in declaration order. -/
theorem generateEndpointRoute_handler_invocation (api : Api) (endpointName : String)
    (endpoint : Endpoint) :
    TsStmt.constDecl "response" none
      (.awaitE (.call (.ident endpointName)
        ((if isVoid api endpoint.requestType then [] else [TsExpr.ident "request"])
         ++ ((endpoint.path.filterMap fun pc =>
               match pc with
               | .dynamic name _ => some name
               | .static _ => none).map TsExpr.ident)
         ++ endpoint.headers.map fun h => TsExpr.ident h.1)))
      ∈ routeHandlerStmts (generateEndpointRoute api endpointName endpoint) := by
  have hargs : (endpoint.path.filterMap fun pc =>
        match pc with
        | .dynamic name _ => some (TsExpr.ident name)
        | .static _ => none) =
      ((endpoint.path.filterMap fun pc =>
        match pc with
        | .dynamic name _ => some name
        | .static _ => none).map TsExpr.ident) := by
    rw [List.map_filterMap]
    refine List.filterMap_congr ?_
    intro pc _
    cases pc <;> rfl
  simp only [generateEndpointRoute, routeHandlerStmts, REQUEST_PARAMETER,
    RESPONSE_PARAMETER, PARSED_REQUEST_VARIABLE, RESPONSE_VARIABLE, EXPRESS_APP_NAME]
  rw [← hargs]
  refine List.mem_append_left _ (List.mem_append_right _ ?_)
  exact List.mem_singleton.mpr rfl

/-- C9: the generated stub module is (a possibly empty import statement
list followed by) a single exported async function named after the
endpoint, whose parameters are the request body exactly when the request
type is non-void, then one typed parameter per dynamic path component in
path order, then one typed parameter per header in declaration order;
whose declared return type is a Promise of the union of
`{status: 200, data: responseType}`, one `{status: code, data: type}` per
custom-error status code, and `{status: number, data: defaultErrorType}`;
and whose body is a single unconditional throw of an error whose message
names the endpoint and says it is not yet implemented. -/
theorem generateEndpointHandlerSource_stub (api : Api) (endpointName : String)
    (endpoint : Endpoint) :
    ∃ importStmts, generateEndpointHandlerSource api endpointName endpoint =
      importStmts ++
      [ TsStmt.funcDecl true true endpointName
          ((if isVoid api endpoint.requestType then []
            else [("request", TsType.ofType endpoint.requestType)])
           ++ (endpoint.path.filterMap fun pc =>
                 match pc with
                 | .dynamic name t => some (name, TsType.ofType t)
                 | .static _ => none)
           ++ endpoint.headers.map fun h => (h.1, TsType.ofType h.2.type))
          (TsType.promiseOf (.union
            ([SpotType.object [("status", .intConstant 200), ("data", endpoint.responseType)]]
             ++ (endpoint.customErrorTypes.map fun ct =>
                   SpotType.object [("status", .intConstant ct.1), ("data", ct.2)])
             ++ [SpotType.object [("status", .number), ("data", endpoint.defaultErrorType)]])))
          [ TsStmt.throwS (.newE (.ident "Error")
              [.strLit ("Endpoint " ++ endpointName ++ " is not yet implemented!")]) ] ] :=
  ⟨_, rfl⟩
